import Mathlib

set_option autoImplicit false

/-!
Shallow embedding of zinolib's Zino1 controller (`src/zinolib/controllers/zino1.py`)
and of the `poll` notification-reconciliation step of `examples/curitz2.py`.

Python strings become `String`, Python dicts become insertion-ordered
association lists, Python exceptions become the `Except PyErr` monad, and the
session collaborator becomes a record of `Except`-valued fields.
-/

deriving instance DecidableEq for Except

/-- Python exception values the embedded code can raise.  `managerException`
wraps its cause, mirroring `raise self.ManagerException(e)`. -/
inductive PyErr where
  | valueError : PyErr
  | indexError : PyErr
  | keyError : PyErr
  | protocolError : PyErr
  | managerException : PyErr → PyErr
  deriving DecidableEq, Repr

/-- The whitespace characters Python's `str.strip` removes (restricted to the
ones that can occur in this line-oriented wire format). -/
def pyWhite (c : Char) : Bool :=
  c = ' ' || c = '\t' || c = '\n' || c = '\r'

/-- Python `str.strip` on a character list. -/
def stripChars (l : List Char) : List Char :=
  (((l.dropWhile pyWhite).reverse).dropWhile pyWhite).reverse

/-- Python `str.strip`. -/
def pyStrip (s : String) : String :=
  String.mk (stripChars s.toList)

/-- Split a character list at the first occurrence of `sep`; `none` when `sep`
is absent. -/
def splitFirstChars (sep : Char) : List Char → Option (List Char × List Char)
  | [] => none
  | c :: rest =>
    if c = sep then some ([], rest)
    else (splitFirstChars sep rest).map (fun p => (c :: p.1, p.2))

/-- Python `s.split(sep, 1)`: `some (before, after)` around the first `sep`,
`none` when `sep` does not occur (so that unpacking `a, b = ...` raises). -/
def splitFirst (sep : Char) (s : String) : Option (String × String) :=
  (splitFirstChars sep s.toList).map (fun p => (String.mk p.1, String.mk p.2))

/-- Python dict assignment `d[k] = v` on an insertion-ordered association
list: overwrite in place when the key is present, append otherwise. -/
def dictSet {α β : Type} [DecidableEq α] (d : List (α × β)) (k : α) (v : β) :
    List (α × β) :=
  if k ∈ d.map Prod.fst then
    d.map (fun p => if p.1 = k then (k, v) else p)
  else d ++ [(k, v)]

/-- Python dict read `d.get(k)` on an insertion-ordered association list. -/
def dictGet {α β : Type} [DecidableEq α] : List (α × β) → α → Option β
  | [], _ => none
  | p :: t, k => if p.1 = k then some p.2 else dictGet t k

/-- `EventAdapter.FIELD_MAP` from zino1.py. -/
def FIELD_MAP : List (String × String) :=
  [("state", "adm_state"), ("bfdAddr", "bfd_addr"), ("bfdDiscr", "bfd_discr"),
   ("bfdState", "bfd_state"), ("bfdIx", "bfd_ix"), ("bgpAS", "bgp_AS"),
   ("bgpOS", "bgp_OS"), ("ifindex", "if_index"), ("portstate", "port_state")]

/-- Python `FIELD_MAP.get(k, k)`. -/
def fieldMapGet (k : String) : String :=
  (dictGet FIELD_MAP k).getD k

/-- Python `'_'.join(k.split('-'))`: replace every hyphen with an underscore. -/
def dashToUnderscore (s : String) : String :=
  String.mk (s.toList.map (fun c => if c = '-' then '_' else c))

/-- One iteration's key/value computation in `attrlist_to_attrdict`:
`k, v = item.split(":", 1)` (none when the line has no colon, making the
unpacking raise `ValueError`), hyphens of the key to underscores when
present, `FIELD_MAP.get(k, k)`, then key and value stripped. -/
def lineKV (item : String) : Option (String × String) :=
  match splitFirst ':' item with
  | none => none
  | some (k, v) =>
    let k1 := if '-' ∈ k.toList then dashToUnderscore k else k
    some (pyStrip (fieldMapGet k1), pyStrip v)

/-- The loop of `EventAdapter.attrlist_to_attrdict`, the Python dict threaded
as an accumulator. -/
def attrLoop (d : List (String × String)) :
    List String → Except PyErr (List (String × String))
  | [] => .ok d
  | item :: rest =>
    match lineKV item with
    | none => .error .valueError
    | some (k, v) => attrLoop (dictSet d k v) rest

/-- `EventAdapter.attrlist_to_attrdict` from zino1.py. -/
def attrlist_to_attrdict (attrlist : List String) :
    Except PyErr (List (String × String)) :=
  attrLoop [] attrlist

/-- A UTC datetime at second precision, the shape of
`datetime.fromtimestamp(_, timezone.utc)` values. -/
structure UTCTime where
  year : Nat
  month : Nat
  day : Nat
  hour : Nat
  minute : Nat
  second : Nat
  deriving DecidableEq, Repr

/-- Civil date from days since 1970-01-01 on the proleptic Gregorian calendar
(the standard era-based conversion, for nonnegative timestamps). -/
def civilFromDays (days : Nat) : Nat × Nat × Nat :=
  let z := days + 719468
  let era := z / 146097
  let doe := z % 146097
  let yoe := (doe - doe / 1460 + doe / 36524 - doe / 146096) / 365
  let y := yoe + era * 400
  let doy := doe - (365 * yoe + yoe / 4 - yoe / 100)
  let mp := (5 * doy + 2) / 153
  let d := doy - (153 * mp + 2) / 5 + 1
  let m := if mp < 10 then mp + 3 else mp - 9
  (if m ≤ 2 then y + 1 else y, m, d)

/-- `convert_timestamp` from zino1.py:
`datetime.fromtimestamp(timestamp, timezone.utc)`. -/
def convert_timestamp (timestamp : Nat) : UTCTime :=
  let c := civilFromDays (timestamp / 86400)
  let secs := timestamp % 86400
  ⟨c.1, c.2.1, c.2.2, secs / 3600, secs % 3600 / 60, secs % 60⟩

/-- `HistoryDict` from zino1.py: one parsed history entry. -/
structure HistoryDict where
  date : UTCTime
  user : String
  log : String
  deriving DecidableEq, Repr

/-- `LogDict` from zino1.py: one parsed log entry. -/
structure LogDict where
  date : UTCTime
  log : String
  deriving DecidableEq, Repr

/-- `HistoryAdapter.SYSTEM_USER`. -/
def SYSTEM_USER : String := "monitor"

/-- Python `row.startswith(" ")`. -/
def startsWithSpace (s : String) : Bool :=
  match s.toList with
  | [] => false
  | c :: _ => c = ' '

/-- The decimal value of a digit character. -/
def digitVal (c : Char) : Option Nat :=
  if '0' ≤ c ∧ c ≤ '9' then some (c.toNat - '0'.toNat) else none

/-- Accumulate the value of a decimal numeral, `none` at a non-digit. -/
def natOfChars (acc : Nat) : List Char → Option Nat
  | [] => some acc
  | c :: t =>
    match digitVal c with
    | some d => natOfChars (acc * 10 + d) t
    | none => none

/-- Python `int(s)` for the timestamps of this wire format: the value of a
nonempty all-digit string, `ValueError` otherwise. -/
def pyInt (s : String) : Except PyErr Nat :=
  match s.toList with
  | [] => .error .valueError
  | l =>
    match natOfChars 0 l with
    | some n => .ok n
    | none => .error .valueError

/-- The line loop of `HistoryAdapter.parse_response`.  The accumulator holds
the entries built so far in reverse order, so the Python mutation of
`history_list[-1]` becomes replacing the head; `history_list[-1]` on an
empty list raises `IndexError`. -/
def historyLoop (acc : List HistoryDict) :
    List String → Except PyErr (List HistoryDict)
  | [] => .ok acc.reverse
  | row :: rest =>
    if row = " " then historyLoop acc rest
    else if startsWithSpace row then
      match acc with
      | [] => .error .indexError
      | latest :: earlier =>
        historyLoop ({ latest with log := latest.log ++ pyStrip row ++ " " } :: earlier) rest
    else
      match splitFirst ' ' row with
      | none => .error .valueError
      | some (timestamp, body) =>
        match pyInt timestamp with
        | .error e => .error e
        | .ok t =>
          let dt := convert_timestamp t
          let entry : HistoryDict :=
            if ' ' ∈ body.toList then ⟨dt, SYSTEM_USER, body⟩
            else ⟨dt, body, ""⟩
          historyLoop (entry :: acc) rest

/-- `HistoryAdapter.parse_response` from zino1.py: the line loop followed by
the final pass stripping every entry's log text. -/
def HistoryAdapter.parse_response (history_data : List String) :
    Except PyErr (List HistoryDict) :=
  (historyLoop [] history_data).map (List.map (fun e => { e with log := pyStrip e.log }))

/-- `LogAdapter.parse_response` from zino1.py: split each row at its first
space, convert the timestamp, one entry per row. -/
def LogAdapter.parse_response : List String → Except PyErr (List LogDict)
  | [] => .ok []
  | row :: rest =>
    match splitFirst ' ' row with
    | none => .error .valueError
    | some (timestamp, lg) =>
      match pyInt timestamp with
      | .error e => .error e
      | .ok t =>
        (LogAdapter.parse_response rest).map (fun l => ⟨convert_timestamp t, lg⟩ :: l)

/-- A Python value in a converted attribute dict: `convert_values` turns the
`ac_down` string into an int, every other value stays a string. -/
inductive PyVal where
  | str : String → PyVal
  | int : Nat → PyVal
  deriving DecidableEq, Repr

/-- `EventAdapter.convert_values` from zino1.py, with
`FIELD_VALUE_CONVERTER_MAP = {'ac_down': int}`: when the key `ac_down` is
present its value is passed through `int()` (`ValueError` on a
non-numeral). -/
def convert_values (d : List (String × String)) :
    Except PyErr (List (String × PyVal)) :=
  d.mapM (fun p =>
    if p.1 = "ac_down" then (pyInt p.2).map (fun n => (p.1, PyVal.int n))
    else .ok (p.1, PyVal.str p.2))

/-- The typed event.  Modelled from the spec: the Event Model of
event_types.py is not under src/; per section 3 an event has an immutable
integer id, the attribute map produced by the Attribute Parser (unknown
attributes retained), and owns its history and log sequences. -/
structure Event where
  id : Nat
  attrs : List (String × PyVal)
  history : List HistoryDict
  log : List LogDict
  deriving DecidableEq, Repr

/-- Modelled from the spec: `Event.create(attributes)` of event_types.py (not
under src/) "validates presence of a minimal required attribute set (id,
kind discriminator) and constructs an Event; additional unknown attributes
are retained opaquely rather than dropped". -/
def Event.create (d : List (String × PyVal)) : Except PyErr Event :=
  match dictGet d "id", dictGet d "type" with
  | some (.str i), some _ =>
    match pyInt i with
    | .ok n => .ok ⟨n, d, [], []⟩
    | .error e => .error e
  | _, _ => .error .valueError

/-- The session collaborator (external, spec section 6): each operation either
returns a value or raises, `protocolError` on transport failure. -/
structure Session where
  get_caseids : Except PyErr (List Nat)
  get_raw_attributes : Nat → Except PyErr (List String)
  get_raw_history : Nat → Except PyErr (List String)
  get_raw_log : Nat → Except PyErr (List String)
  set_state : Nat → String → Except PyErr Bool
  add_history : Nat → String → Except PyErr Bool

/-- `Zino1EventManager.rename_exception` from zino1.py: run the call, catch
`ProtocolError` e and re-raise `ManagerException(e)`; everything else
passes through. -/
def rename_exception {α : Type} (call : Except PyErr α) : Except PyErr α :=
  match call with
  | .error .protocolError => .error (.managerException .protocolError)
  | other => other

/-- `Zino1EventManager.create_event_from_id` from zino1.py: fetch the raw
attribute lines (wrapped by rename_exception), parse, convert values,
construct the event. -/
def create_event_from_id (s : Session) (event_id : Nat) : Except PyErr Event :=
  match rename_exception (s.get_raw_attributes event_id) with
  | .error e => .error e
  | .ok attrlist =>
    match attrlist_to_attrdict attrlist with
    | .error e => .error e
    | .ok attrdict =>
      match convert_values attrdict with
      | .error e => .error e
      | .ok attrdict2 => Event.create attrdict2

/-- Modelled from the spec: `HistoryEntry.create_list` of event_types.py (not
under src/) builds the typed entries from the parsed dicts, preserving
content and order. -/
def HistoryEntry.create_list (l : List HistoryDict) : List HistoryDict := l

/-- Modelled from the spec: `LogEntry.create_list` of event_types.py (not
under src/), as for history entries. -/
def LogEntry.create_list (l : List LogDict) : List LogDict := l

/-- `Zino1EventManager.get_history_for_id` from zino1.py. -/
def get_history_for_id (s : Session) (event_id : Nat) :
    Except PyErr (List HistoryDict) :=
  match rename_exception (s.get_raw_history event_id) with
  | .error e => .error e
  | .ok raw =>
    match HistoryAdapter.parse_response raw with
    | .error e => .error e
    | .ok parsed => .ok (HistoryEntry.create_list parsed)

/-- `Zino1EventManager.get_log_for_id` from zino1.py. -/
def get_log_for_id (s : Session) (event_id : Nat) :
    Except PyErr (List LogDict) :=
  match rename_exception (s.get_raw_log event_id) with
  | .error e => .error e
  | .ok raw =>
    match LogAdapter.parse_response raw with
    | .error e => .error e
    | .ok parsed => .ok (LogEntry.create_list parsed)

/-- Modelled from the spec: `set_history_for_event` of base.py (not under
src/) replaces the event's history with the new list (section 4.4; the
value-equality short-circuit changes nothing observable). -/
def set_history_for_event (ev : Event) (h : List HistoryDict) : Event :=
  { ev with history := h }

/-- Modelled from the spec: `set_log_for_event` of base.py (not under src/),
as for history. -/
def set_log_for_event (ev : Event) (l : List LogDict) : Event :=
  { ev with log := l }

/-- `Zino1EventManager.get_updated_event_for_id` from zino1.py. -/
def get_updated_event_for_id (s : Session) (event_id : Nat) :
    Except PyErr Event :=
  match create_event_from_id s event_id with
  | .error e => .error e
  | .ok ev =>
    match get_history_for_id s ev.id with
    | .error e => .error e
    | .ok hs =>
      let ev2 := set_history_for_event ev hs
      match get_log_for_id s ev2.id with
      | .error e => .error e
      | .ok ls => .ok (set_log_for_event ev2 ls)

/-- The manager's event store `self.events`: a Python dict id → Event. -/
abbrev Store := List (Nat × Event)

/-- Modelled from the spec: `_get_event` of base.py (not under src/) gives
read access to the current store, a mapping id → Event; a missing id is a
lookup failure. -/
def getEventFromStore (store : Store) (event_id : Nat) : Except PyErr Event :=
  match dictGet store event_id with
  | some ev => .ok ev
  | none => .error .keyError

/-- Modelled from the spec: `_set_event` of base.py (not under src/) writes
the event back into the store under its id. -/
def setEventInStore (store : Store) (ev : Event) : Store :=
  dictSet store ev.id ev

/-- `Zino1EventManager.change_admin_state_for_id` from zino1.py, the store
threaded explicitly; the result pair is (return value, store after the
call).  The `set_admin_state` session call is made directly, not through
rename_exception. -/
def change_admin_state_for_id (s : Session) (store : Store) (event_id : Nat)
    (admin_state : String) : Except PyErr (Option Event × Store) :=
  match getEventFromStore store event_id with
  | .error e => .error e
  | .ok ev =>
    match s.set_state ev.id admin_state with
    | .error e => .error e
    | .ok success =>
      if success then
        match get_updated_event_for_id s event_id with
        | .error e => .error e
        | .ok ev2 => .ok (some ev2, setEventInStore store ev2)
      else .ok (none, store)

/-- `HistoryAdapter.add` from zino1.py: post the message; on success re-fetch
and re-parse the history onto the event and return it, else None.  The
`add_history` session call is not wrapped by rename_exception. -/
def HistoryAdapter.add (s : Session) (message : String) (ev : Event) :
    Except PyErr (Option Event) :=
  match s.add_history ev.id message with
  | .error e => .error e
  | .ok success =>
    if success then
      match s.get_raw_history ev.id with
      | .error e => .error e
      | .ok raw =>
        match HistoryAdapter.parse_response raw with
        | .error e => .error e
        | .ok parsed => .ok (some { ev with history := HistoryEntry.create_list parsed })
    else .ok none

/-- `Zino1EventManager.add_history_entry_for_id` from zino1.py. -/
def add_history_entry_for_id (s : Session) (store : Store) (event_id : Nat)
    (message : String) : Except PyErr (Option Event × Store) :=
  match getEventFromStore store event_id with
  | .error e => .error e
  | .ok ev =>
    match HistoryAdapter.add s message ev with
    | .error e => .error e
    | .ok success =>
      if success.isSome then
        match get_updated_event_for_id s event_id with
        | .error e => .error e
        | .ok ev2 => .ok (some ev2, setEventInStore store ev2)
      else .ok (none, store)

/-- The id loop of `Zino1EventManager.get_events`: each id is fetched with
create_event_from_id and stored; there is no exception handling in the
loop, so a failure escapes with the store as mutated so far. -/
def get_events_loop (s : Session) (store : Store) :
    List Nat → Store × Option PyErr
  | [] => (store, none)
  | event_id :: rest =>
    match create_event_from_id s event_id with
    | .error e => (store, some e)
    | .ok ev => get_events_loop s (dictSet store event_id ev) rest

/-- `Zino1EventManager.get_events` from zino1.py: fetch all case ids, then
build and store one event per id.  Returns the store after the call
together with the exception that escaped, if any. -/
def get_events (s : Session) (store : Store) : Store × Option PyErr :=
  match s.get_caseids with
  | .error e => (store, some e)
  | .ok ids => get_events_loop s store ids

/-- A notification from the notifier collaborator:
`Notification{id, type, case}`. -/
structure Notification where
  id : Nat
  ntype : String
  case : Nat
  deriving DecidableEq, Repr

/-- The dashboard globals touched by `poll` in curitz2.py: the `cases` store
and the `cases_selected` list. -/
structure PollState where
  cases : List (Nat × Event)
  selected : List Nat
  deriving DecidableEq, Repr

/-- Python `list.remove`: drop the first occurrence, `ValueError` when
absent. -/
def listRemoveAux (x : Nat) : List Nat → Option (List Nat)
  | [] => none
  | y :: rest => if y = x then some rest else (listRemoveAux x rest).map (y :: ·)

/-- Python `cases_selected.remove(x)` on the selection list. -/
def listRemove (l : List Nat) (x : Nat) : Except PyErr (List Nat) :=
  match listRemoveAux x l with
  | some l2 => .ok l2
  | none => .error .valueError

/-- Python `cases.pop(k, None)`: remove the entry for `k` when present, no
error otherwise. -/
def dictPop (d : List (Nat × Event)) (k : Nat) : List (Nat × Event) :=
  d.filter (fun p => p.1 ≠ k)

/-- The outcome of one `poll` call: the new global state, the Python return
value (True, False or None), and whether `session.case` was called (a
fetch happened). -/
structure PollResult where
  state : PollState
  retval : Option Bool
  fetched : Bool
  deriving DecidableEq, Repr

/-- `poll` from examples/curitz2.py, over one already-drained notification
(`notifier.poll()` returned `upd`); `fetch` stands for `session.case`. -/
def poll (fetch : Nat → Event) (st : PollState) (upd : Option Notification) :
    Except PyErr PollResult :=
  match upd with
  | none => .ok ⟨st, none, false⟩
  | some u =>
    if dictGet st.cases u.id = none ∧ u.ntype ≠ "state" then .ok ⟨st, none, false⟩
    else if u.ntype = "state" then
      .ok ⟨{ st with cases := dictSet st.cases u.id (fetch u.id) }, some true, true⟩
    else if u.ntype = "attr" then
      .ok ⟨{ st with cases := dictSet st.cases u.id (fetch u.id) }, some true, true⟩
    else if u.ntype = "history" then .ok ⟨st, some true, false⟩
    else if u.ntype = "log" then .ok ⟨st, some true, false⟩
    else if u.ntype = "scavenged" then
      let cases2 := dictPop st.cases u.id
      if u.case ∈ st.selected then
        (listRemove st.selected u.id).map (fun sel2 => ⟨⟨cases2, sel2⟩, some true, false⟩)
      else
        .ok ⟨⟨cases2, st.selected⟩, some true, false⟩
    else .ok ⟨st, some false, false⟩

/-- The per-line action of the Attribute Parser exactly as claim C4's words
describe it: hyphens in the key become underscores, then the fixed rename
table applies, and that key — with no further normalization — maps to the
value trimmed of surrounding whitespace. -/
def c4Step (d : List (String × String)) (item : String) : List (String × String) :=
  match splitFirst ':' item with
  | none => d
  | some (k, v) => dictSet d (fieldMapGet (dashToUnderscore k)) (pyStrip v)

/-- The Attribute Parser output as claim C4 states it (key not trimmed). -/
def attrdictClaimed (ls : List String) : List (String × String) :=
  ls.foldl c4Step []

/-- The per-line action of amended claim C4: hyphens in the key become
underscores, the fixed rename table applies, and then the key is trimmed
of surrounding whitespace, mapping to the value trimmed of surrounding
whitespace. -/
def c4StepAmended (d : List (String × String)) (item : String) :
    List (String × String) :=
  match splitFirst ':' item with
  | none => d
  | some (k, v) => dictSet d (pyStrip (fieldMapGet (dashToUnderscore k))) (pyStrip v)

/-- The Attribute Parser output as amended claim C4 states it. -/
def attrdictAmended (ls : List String) : List (String × String) :=
  ls.foldl c4StepAmended []

/-- One step of the overwrite fold behind claim C5: a line whose normalized
key is `k` overwrites the accumulated value. -/
def lastStep (k : String) (acc : Option String) (item : String) : Option String :=
  match lineKV item with
  | some (k2, v) => if k2 = k then some v else acc
  | none => acc

/-- The value claim C5 predicts for normalized key `k`: starting from `init`,
each line whose normalized key is `k` overwrites, so the last such line
wins. -/
def lastValFrom (ls : List String) (k : String) (init : Option String) :
    Option String :=
  ls.foldl (lastStep k) init

/-- The value claim C5 predicts for normalized key `k` over a whole input:
the trimmed value of the last line normalizing to `k`, none when no line
does. -/
def lastValFor (ls : List String) (k : String) : Option String :=
  lastValFrom ls k none

/-- Whether an Except value is a success. -/
def isOkExcept {ε α : Type} : Except ε α → Bool
  | .ok _ => true
  | .error _ => false

/-- Attribute lines of a well-formed event, for the concrete scenarios. -/
def attrsFor (n : Nat) : List String :=
  ["id:" ++ toString n, "type:portstate", "state:open"]

/-- The event built from `attrsFor n`. -/
def evFor (n : Nat) : Event :=
  ⟨n, [("id", .str (toString n)), ("type", .str "portstate"),
    ("adm_state", .str "open")], [], []⟩

/-- A session whose attribute fetch raises ProtocolError for id 2 only, for
the get_events scenarios. -/
def c1session : Session where
  get_caseids := .ok [1, 2, 3]
  get_raw_attributes := fun i =>
    if i = 2 then .error .protocolError else .ok (attrsFor i)
  get_raw_history := fun _ => .ok []
  get_raw_log := fun _ => .ok []
  set_state := fun _ _ => .ok true
  add_history := fun _ _ => .ok true

/-- A session all of whose calls raise ProtocolError, for the
exception-translation scenarios. -/
def c3session : Session where
  get_caseids := .error .protocolError
  get_raw_attributes := fun _ => .error .protocolError
  get_raw_history := fun _ => .error .protocolError
  get_raw_log := fun _ => .error .protocolError
  set_state := fun _ _ => .error .protocolError
  add_history := fun _ _ => .error .protocolError

/-- A session that declines every state change, for the soft-failure
scenario. -/
def c8session : Session where
  get_caseids := .ok [1]
  get_raw_attributes := fun i => .ok (attrsFor i)
  get_raw_history := fun _ => .ok []
  get_raw_log := fun _ => .ok []
  set_state := fun _ _ => .ok false
  add_history := fun _ _ => .ok true

/-- The history block of claim C7. -/
def c7input : List String :=
  ["1678273372 state change embryonic -> open (monitor)",
   "1678276375 alice", " manual note ", " "]

/-- The two entries claim C7 predicts for `c7input` (dates as the claim
states them). -/
def c7claimedOutput : List HistoryDict :=
  [⟨⟨2023, 3, 8, 6, 49, 32⟩, "monitor", "state change embryonic -> open (monitor)"⟩,
   ⟨⟨2023, 3, 8, 7, 39, 35⟩, "alice", "manual note"⟩]

/-- The two entries the History Parser produces for `c7input`: epoch
1678273372 is 2023-03-08T11:02:52Z and epoch 1678276375 is
2023-03-08T11:52:55Z. -/
def c7actualOutput : List HistoryDict :=
  [⟨⟨2023, 3, 8, 11, 2, 52⟩, "monitor", "state change embryonic -> open (monitor)"⟩,
   ⟨⟨2023, 3, 8, 11, 52, 55⟩, "alice", "manual note"⟩]

/-! ### Helper lemmas -/

theorem mk_toList (s : String) : String.mk s.toList = s := rfl

theorem map_dash_id (l : List Char) (h : '-' ∉ l) :
    l.map (fun c => if c = '-' then '_' else c) = l := by
  induction l with
  | nil => rfl
  | cons c t ih =>
    simp only [List.mem_cons, not_or] at h
    rw [List.map_cons, if_neg (fun e => h.1 e.symm), ih h.2]

theorem dashToUnderscore_eq_self (k : String) (h : '-' ∉ k.toList) :
    dashToUnderscore k = k := by
  unfold dashToUnderscore
  rw [map_dash_id k.toList h, mk_toList]

theorem lineKV_norm (item : String) : lineKV item =
    (splitFirst ':' item).map (fun p =>
      (pyStrip (fieldMapGet (dashToUnderscore p.1)), pyStrip p.2)) := by
  unfold lineKV
  cases h : splitFirst ':' item with
  | none => rfl
  | some p =>
    obtain ⟨k, v⟩ := p
    by_cases hc : '-' ∈ k.toList
    · simp only [if_pos hc, Option.map_some']
    · simp only [if_neg hc, Option.map_some', dashToUnderscore_eq_self k hc]

theorem dictGet_replace_ne {α β : Type} [DecidableEq α] (t : List (α × β))
    (a k : α) (v : β) (h : k ≠ a) :
    dictGet (t.map (fun p => if p.1 = a then (a, v) else p)) k = dictGet t k := by
  induction t with
  | nil => rfl
  | cons p t ih =>
    rw [List.map_cons]
    by_cases hp : p.1 = a
    · rw [if_pos hp]
      simp only [dictGet]
      rw [if_neg (fun e => h e.symm), if_neg (fun e => h (hp ▸ e).symm), ih]
    · rw [if_neg hp]
      simp only [dictGet]
      by_cases hk : p.1 = k
      · rw [if_pos hk, if_pos hk]
      · rw [if_neg hk, if_neg hk, ih]

theorem dictGet_replace_self {α β : Type} [DecidableEq α] (d : List (α × β))
    (a : α) (v : β) (hm : a ∈ d.map Prod.fst) :
    dictGet (d.map (fun p => if p.1 = a then (a, v) else p)) a = some v := by
  induction d with
  | nil => cases hm
  | cons p t ih =>
    rw [List.map_cons]
    by_cases hp : p.1 = a
    · rw [if_pos hp]
      simp [dictGet]
    · rw [if_neg hp]
      simp only [dictGet, if_neg hp]
      apply ih
      rw [List.map_cons, List.mem_cons] at hm
      exact hm.resolve_left (fun e => hp e.symm)

theorem dictGet_eq_none_of_not_mem {α β : Type} [DecidableEq α]
    (d : List (α × β)) (k : α) (h : k ∉ d.map Prod.fst) : dictGet d k = none := by
  induction d with
  | nil => rfl
  | cons p t ih =>
    rw [List.map_cons, List.mem_cons, not_or] at h
    simp only [dictGet]
    rw [if_neg (fun e => h.1 e.symm)]
    exact ih h.2

theorem dictGet_append_of_none {α β : Type} [DecidableEq α] (d l2 : List (α × β))
    (k : α) (h : dictGet d k = none) : dictGet (d ++ l2) k = dictGet l2 k := by
  induction d with
  | nil => rfl
  | cons p t ih =>
    simp only [dictGet] at h
    rw [List.cons_append]
    simp only [dictGet]
    by_cases hp : p.1 = k
    · rw [if_pos hp] at h
      cases h
    · rw [if_neg hp] at h
      rw [if_neg hp]
      exact ih h

theorem dictGet_append_of_some {α β : Type} [DecidableEq α] (d l2 : List (α × β))
    (k : α) (w : β) (h : dictGet d k = some w) : dictGet (d ++ l2) k = some w := by
  induction d with
  | nil => cases h
  | cons p t ih =>
    simp only [dictGet] at h
    rw [List.cons_append]
    simp only [dictGet]
    by_cases hp : p.1 = k
    · rw [if_pos hp] at h
      rw [if_pos hp]
      exact h
    · rw [if_neg hp] at h
      rw [if_neg hp]
      exact ih h

theorem dictGet_dictSet {α β : Type} [DecidableEq α] (d : List (α × β))
    (a k : α) (v : β) :
    dictGet (dictSet d a v) k = if k = a then some v else dictGet d k := by
  unfold dictSet
  by_cases hm : a ∈ d.map Prod.fst
  · rw [if_pos hm]
    by_cases hk : k = a
    · subst hk
      rw [if_pos rfl, dictGet_replace_self d k v hm]
    · rw [if_neg hk, dictGet_replace_ne d a k v hk]
  · rw [if_neg hm]
    by_cases hk : k = a
    · subst hk
      rw [if_pos rfl,
        dictGet_append_of_none d [(k, v)] k (dictGet_eq_none_of_not_mem d k hm)]
      simp [dictGet]
    · rw [if_neg hk]
      cases hg : dictGet d k with
      | none =>
        rw [dictGet_append_of_none d [(a, v)] k hg]
        simp only [dictGet]
        rw [if_neg (fun e => hk e.symm)]
      | some w => rw [dictGet_append_of_some d [(a, v)] k w hg]

theorem keys_replace {α β : Type} [DecidableEq α] (d : List (α × β)) (a : α) (v : β) :
    (d.map (fun p => if p.1 = a then (a, v) else p)).map Prod.fst = d.map Prod.fst := by
  induction d with
  | nil => rfl
  | cons p t ih =>
    rw [List.map_cons, List.map_cons, List.map_cons, ih]
    by_cases hp : p.1 = a
    · rw [if_pos hp, hp]
    · rw [if_neg hp]

theorem keys_dictSet_nodup {α β : Type} [DecidableEq α] (d : List (α × β))
    (a : α) (v : β) (h : (d.map Prod.fst).Nodup) :
    ((dictSet d a v).map Prod.fst).Nodup := by
  unfold dictSet
  by_cases hm : a ∈ d.map Prod.fst
  · rw [if_pos hm, keys_replace]
    exact h
  · rw [if_neg hm, List.map_append]
    rw [List.nodup_append]
    exact ⟨h, List.nodup_singleton a, by
      intro x hx hx2
      simp only [List.map_cons, List.map_nil, List.mem_singleton] at hx2
      exact hm (hx2 ▸ hx)⟩

theorem attrLoop_ok_lookup (ls : List String) :
    ∀ (d m : List (String × String)), attrLoop d ls = .ok m →
      ∀ k, dictGet m k = lastValFrom ls k (dictGet d k) := by
  induction ls with
  | nil =>
    intro d m h k
    cases h
    rfl
  | cons item rest ih =>
    intro d m h k
    cases hkv : lineKV item with
    | none =>
      simp only [attrLoop, hkv] at h
      cases h
    | some p =>
      obtain ⟨a, v⟩ := p
      simp only [attrLoop, hkv] at h
      rw [ih (dictSet d a v) m h k]
      unfold lastValFrom
      rw [List.foldl_cons, dictGet_dictSet]
      have hstep : lastStep k (dictGet d k) item =
          if a = k then some v else dictGet d k := by
        unfold lastStep
        rw [hkv]
      rw [hstep]
      congr 1
      by_cases hk : k = a
      · subst hk
        simp
      · rw [if_neg hk, if_neg (fun e => hk e.symm)]

theorem attrLoop_ok_nodup (ls : List String) :
    ∀ (d m : List (String × String)), (d.map Prod.fst).Nodup →
      attrLoop d ls = .ok m → (m.map Prod.fst).Nodup := by
  induction ls with
  | nil =>
    intro d m hd h
    cases h
    exact hd
  | cons item rest ih =>
    intro d m hd h
    cases hkv : lineKV item with
    | none =>
      simp only [attrLoop, hkv] at h
      cases h
    | some p =>
      obtain ⟨a, v⟩ := p
      simp only [attrLoop, hkv] at h
      exact ih (dictSet d a v) m (keys_dictSet_nodup d a v hd) h

theorem attrLoop_amended (ls : List String) :
    ∀ d : List (String × String),
      (∀ item ∈ ls, (splitFirst ':' item).isSome = true) →
      attrLoop d ls = .ok (ls.foldl c4StepAmended d) := by
  induction ls with
  | nil =>
    intro d _
    rfl
  | cons item rest ih =>
    intro d h
    have hitem := h item (List.mem_cons_self item rest)
    cases hsp : splitFirst ':' item with
    | none =>
      rw [hsp] at hitem
      cases hitem
    | some p =>
      obtain ⟨k, v⟩ := p
      have hkv : lineKV item =
          some (pyStrip (fieldMapGet (dashToUnderscore k)), pyStrip v) := by
        rw [lineKV_norm, hsp, Option.map_some']
      simp only [attrLoop, hkv]
      rw [ih (dictSet d (pyStrip (fieldMapGet (dashToUnderscore k))) (pyStrip v))
        (fun i hi => h i (List.mem_cons_of_mem item hi))]
      rw [List.foldl_cons]
      have hstep : c4StepAmended d item =
          dictSet d (pyStrip (fieldMapGet (dashToUnderscore k))) (pyStrip v) := by
        unfold c4StepAmended
        rw [hsp]
      rw [hstep]

theorem attrLoop_error_of_no_colon (ls : List String) :
    ∀ (d : List (String × String)) (item : String), item ∈ ls →
      splitFirst ':' item = none → attrLoop d ls = .error .valueError := by
  induction ls with
  | nil =>
    intro d item h
    cases h
  | cons x rest ih =>
    intro d item h hno
    cases hkv : lineKV x with
    | none => simp only [attrLoop, hkv]
    | some p =>
      obtain ⟨a, v⟩ := p
      simp only [attrLoop, hkv]
      rcases List.mem_cons.mp h with he | hm
      · exfalso
        subst he
        unfold lineKV at hkv
        rw [hno] at hkv
        cases hkv
      · exact ih (dictSet d a v) item hm hno

theorem log_error_of_no_space (ls : List String) :
    ∀ row : String, row ∈ ls → splitFirst ' ' row = none →
      LogAdapter.parse_response ls = .error .valueError := by
  induction ls with
  | nil =>
    intro row h
    cases h
  | cons x rest ih =>
    intro row h hno
    rcases List.mem_cons.mp h with he | hm
    · subst he
      simp only [LogAdapter.parse_response, hno]
    · cases hx : splitFirst ' ' x with
      | none => simp only [LogAdapter.parse_response, hx]
      | some p =>
        obtain ⟨ts, lg⟩ := p
        simp only [LogAdapter.parse_response, hx]
        cases hpi : pyInt ts with
        | error e =>
          have he : e = .valueError := by
            unfold pyInt at hpi
            split at hpi
            · cases hpi
              rfl
            · split at hpi
              · cases hpi
              · cases hpi
                rfl
          rw [he]
        | ok t =>
          rw [ih row hm hno]
          rfl

theorem historyLoop_leading_space (pre : List String) :
    ∀ (rest : List String) (r : String), (∀ x ∈ pre, x = " ") → r ≠ " " →
      startsWithSpace r = true →
      historyLoop [] (pre ++ r :: rest) = .error .indexError := by
  induction pre with
  | nil =>
    intro rest r _ hr hsp
    rw [List.nil_append]
    simp only [historyLoop, if_neg hr, hsp, if_true]
  | cons x pre ih =>
    intro rest r hpre hr hsp
    have hx : x = " " := hpre x (List.mem_cons_self x pre)
    rw [List.cons_append]
    simp only [historyLoop, hx, if_pos]
    exact ih rest r (fun y hy => hpre y (List.mem_cons_of_mem x hy)) hr hsp

theorem get_events_loop_abort (s : Session) (pre : List Nat) :
    ∀ (store : Store) (post : List Nat) (bad : Nat) (e : PyErr),
      (∀ i ∈ pre, isOkExcept (create_event_from_id s i) = true) →
      create_event_from_id s bad = .error e →
      (get_events_loop s store (pre ++ bad :: post)).2 = some e ∧
      ∀ j, j ∉ pre →
        dictGet (get_events_loop s store (pre ++ bad :: post)).1 j = dictGet store j := by
  induction pre with
  | nil =>
    intro store post bad e _ hbad
    rw [List.nil_append]
    simp only [get_events_loop, hbad]
    exact ⟨trivial, fun j _ => trivial⟩
  | cons i pre ih =>
    intro store post bad e hpre hbad
    have hi := hpre i (List.mem_cons_self i pre)
    cases hc : create_event_from_id s i with
    | error e2 =>
      rw [hc] at hi
      cases hi
    | ok ev =>
      rw [List.cons_append]
      simp only [get_events_loop, hc]
      have h2 := ih (dictSet store i ev) post bad e
        (fun x hx => hpre x (List.mem_cons_of_mem i hx)) hbad
      refine ⟨h2.1, fun j hj => ?_⟩
      rw [h2.2 j (fun hj2 => hj (List.mem_cons_of_mem i hj2))]
      rw [dictGet_dictSet]
      rw [if_neg (fun (hji : j = i) => hj (by rw [hji]; exact List.mem_cons_self i pre))]

/-! ### Claim theorems -/

/-- C4 counterexample: on the line " state:open" (a line with a `:` whose key
carries surrounding whitespace) the code strips the key after the rename
table, producing {state: "open"}, while the claim's pipeline — hyphen
replacement and rename with no key trim — produces {" state": "open"}, so
the claim's universal over every line with a `:` fails. -/
theorem c4_normalization_counterexample :
    attrlist_to_attrdict [" state:open"] = .ok [("state", "open")] ∧
    attrdictClaimed [" state:open"] = [(" state", "open")] ∧
    attrlist_to_attrdict [" state:open"] ≠ .ok (attrdictClaimed [" state:open"]) :=
  ⟨by decide, by decide, by decide⟩

/-- C4 amended: for every input whose lines all carry a `:` separator, the
Attribute Parser replaces hyphens in each key with underscores, applies
the fixed rename table, and then trims the key of surrounding whitespace,
mapping it to the value trimmed of surrounding whitespace; in particular
["id:42", "state:open", "ifindex:3"] produces exactly
{id: "42", adm_state: "open", if_index: "3"}. -/
theorem c4_attribute_normalization (ls : List String)
    (h : ∀ item ∈ ls, (splitFirst ':' item).isSome = true) :
    attrlist_to_attrdict ls = .ok (attrdictAmended ls) ∧
    attrlist_to_attrdict ["id:42", "state:open", "ifindex:3"] =
      .ok [("id", "42"), ("adm_state", "open"), ("if_index", "3")] :=
  ⟨attrLoop_amended ls [] h, by decide⟩

theorem c4_attribute_normalization_witness :
    (∀ item ∈ ["id:42", "state:open", "ifindex:3"],
      (splitFirst ':' item).isSome = true) ∧
    attrlist_to_attrdict ["id:42", "state:open", "ifindex:3"] =
      .ok (attrdictAmended ["id:42", "state:open", "ifindex:3"]) :=
  ⟨by decide, (c4_attribute_normalization ["id:42", "state:open", "ifindex:3"]
    (by decide)).1⟩

/-- C5: for every valid `key:value` line sequence, the Attribute Parser
output has exactly one entry per distinct normalized key (its key list is
duplicate-free), and the value stored under each key is the trimmed value
of the last line normalizing to that key. -/
theorem c5_last_duplicate_wins (ls : List String) (m : List (String × String))
    (h : attrlist_to_attrdict ls = .ok m) :
    (m.map Prod.fst).Nodup ∧ ∀ k, dictGet m k = lastValFor ls k := by
  constructor
  · exact attrLoop_ok_nodup ls [] m List.nodup_nil h
  · intro k
    exact attrLoop_ok_lookup ls [] m h k

theorem c5_last_duplicate_wins_witness :
    (([("adm_state", "closed")] : List (String × String)).map Prod.fst).Nodup ∧
    dictGet [("adm_state", "closed")] "adm_state" =
      lastValFor ["state:open", "state:closed"] "adm_state" := by
  have h := c5_last_duplicate_wins ["state:open", "state:closed"]
    [("adm_state", "closed")] (by decide)
  exact ⟨h.1, h.2 "adm_state"⟩

/-- C6: an attribute line without a `:` separator makes the Attribute Parser
fail (the error the spec's taxonomy calls ParseError, realized as the
ValueError Python raises when unpacking the one-element split), and a log
line without a space makes the Log Parser fail the same way. -/
theorem c6_missing_separator_errors (ls1 : List String) (item : String)
    (h1 : item ∈ ls1) (hno1 : splitFirst ':' item = none)
    (ls2 : List String) (row : String)
    (h2 : row ∈ ls2) (hno2 : splitFirst ' ' row = none) :
    attrlist_to_attrdict ls1 = .error .valueError ∧
    LogAdapter.parse_response ls2 = .error .valueError :=
  ⟨attrLoop_error_of_no_colon ls1 [] item h1 hno1,
   log_error_of_no_space ls2 row h2 hno2⟩

theorem c6_missing_separator_errors_witness :
    ("nocolon" ∈ ["nocolon"] ∧ splitFirst ':' "nocolon" = none ∧
      "nospace" ∈ ["nospace"] ∧ splitFirst ' ' "nospace" = none) ∧
    attrlist_to_attrdict ["nocolon"] = .error .valueError ∧
    LogAdapter.parse_response ["nospace"] = .error .valueError :=
  ⟨⟨by decide, by decide, by decide, by decide⟩,
   c6_missing_separator_errors ["nocolon"] "nocolon" (by decide) (by decide)
     ["nospace"] "nospace" (by decide) (by decide)⟩

/-- C7 counterexample: on the history block of the claim the parser does
produce a monitor entry and an alice entry with the claimed messages, but
with dates 2023-03-08T11:02:52Z and 2023-03-08T11:52:55Z, not the claimed
06:49:32Z and 07:39:35Z, so the claimed output is not the result. -/
theorem c7_history_example_counterexample :
    HistoryAdapter.parse_response c7input ≠ .ok c7claimedOutput ∧
    HistoryAdapter.parse_response c7input = .ok c7actualOutput :=
  ⟨by decide, by decide⟩

/-- C7 amended: the history lines of the claim produce exactly two entries in
order: a system entry with date 2023-03-08T11:02:52Z, author monitor, and
message "state change embryonic -> open (monitor)"; and a user entry with
date 2023-03-08T11:52:55Z, author alice, and message "manual note"
(continuation lines concatenated and the final message trimmed). -/
theorem c7_history_example_amended :
    HistoryAdapter.parse_response c7input = .ok c7actualOutput := by decide

/-- C10: the History Parser is total only when every indented line (other
than the single-space end-of-entry marker) is preceded by an entry-start
line: on any input whose first line other than " " begins with a space,
parse_response fails by indexing the last element of the empty entry list
(an IndexError), not with a result or a ParseError. -/
theorem c10_history_requires_entry_start (pre rest : List String) (r : String)
    (hpre : ∀ x ∈ pre, x = " ") (hr : r ≠ " ") (hsp : startsWithSpace r = true) :
    HistoryAdapter.parse_response (pre ++ r :: rest) = .error .indexError := by
  unfold HistoryAdapter.parse_response
  rw [historyLoop_leading_space pre rest r hpre hr hsp]
  rfl

theorem c10_history_requires_entry_start_witness :
    ((∀ x ∈ [" "], x = " ") ∧ " note" ≠ " " ∧ startsWithSpace " note" = true) ∧
    HistoryAdapter.parse_response ([" "] ++ " note" :: []) = .error .indexError :=
  ⟨⟨by decide, by decide, by decide⟩,
   c10_history_requires_entry_start [" "] [] " note" (by decide) (by decide)
     (by decide)⟩

/-- C1 counterexample: with case ids [1, 2, 3] and the attribute fetch of id 2
raising ProtocolError, get_events on an empty store aborts with the
ManagerException (nothing is skipped): id 1 is stored, the escaped
exception is returned, and id 3 is never fetched or stored, contradicting
the claim that the remaining ids are still fetched and stored. -/
theorem c1_get_events_counterexample :
    (get_events c1session []).2 = some (.managerException .protocolError) ∧
    dictGet (get_events c1session []).1 3 = none ∧
    (dictGet (get_events c1session []).1 1).isSome = true := by decide

/-- C1 amended: if fetching the attributes of one id fails, the exception
escapes from get_events and the refresh aborts: ids fetched before the
failing one are stored, and no id outside that prefix (the failing id and
everything after it) is written to the store. -/
theorem c1_get_events_aborts (s : Session) (store : Store) (pre post : List Nat)
    (bad : Nat) (e : PyErr) (hids : s.get_caseids = .ok (pre ++ bad :: post))
    (hpre : ∀ i ∈ pre, isOkExcept (create_event_from_id s i) = true)
    (hbad : create_event_from_id s bad = .error e) :
    (get_events s store).2 = some e ∧
    ∀ j, j ∉ pre → dictGet (get_events s store).1 j = dictGet store j := by
  unfold get_events
  rw [hids]
  exact get_events_loop_abort s pre store post bad e hpre hbad

theorem c1_get_events_aborts_witness :
    (get_events c1session []).2 = some (.managerException .protocolError) ∧
    dictGet (get_events c1session []).1 3 = dictGet ([] : Store) 3 := by
  have h := c1_get_events_aborts c1session [] [1] [3] 2
    (.managerException .protocolError) (by decide) (by decide) (by decide)
  exact ⟨h.1, h.2 3 (by decide)⟩

/-- C3 counterexample: with the session's set_state raising ProtocolError and
event 1 in the store, change_admin_state_for_id propagates the raw
ProtocolError to the caller instead of a ManagerException: the state-change
call is made directly, not through rename_exception. -/
theorem c3_translation_counterexample :
    change_admin_state_for_id c3session [(1, evFor 1)] 1 "closed" =
      .error .protocolError := by decide

/-- C3 amended: the fetch operations create_event_from_id, get_history_for_id
and get_log_for_id translate a session ProtocolError into the domain
ManagerException, but change_admin_state_for_id and
add_history_entry_for_id issue their set_state / add_history session calls
directly, so a protocol error raised there reaches the caller
untranslated. -/
theorem c3_translation_boundary (s : Session) (event_id : Nat) (store : Store)
    (ev : Event) (admin_state message : String)
    (ha : s.get_raw_attributes event_id = .error .protocolError)
    (hh : s.get_raw_history event_id = .error .protocolError)
    (hl : s.get_raw_log event_id = .error .protocolError)
    (hstore : dictGet store event_id = some ev)
    (hs : s.set_state ev.id admin_state = .error .protocolError)
    (hadd : s.add_history ev.id message = .error .protocolError) :
    create_event_from_id s event_id = .error (.managerException .protocolError) ∧
    get_history_for_id s event_id = .error (.managerException .protocolError) ∧
    get_log_for_id s event_id = .error (.managerException .protocolError) ∧
    change_admin_state_for_id s store event_id admin_state =
      .error .protocolError ∧
    add_history_entry_for_id s store event_id message =
      .error .protocolError := by
  have hg : getEventFromStore store event_id = .ok ev := by
    unfold getEventFromStore
    rw [hstore]
  refine ⟨?_, ?_, ?_, ?_, ?_⟩
  · unfold create_event_from_id
    rw [ha]
    rfl
  · unfold get_history_for_id
    rw [hh]
    rfl
  · unfold get_log_for_id
    rw [hl]
    rfl
  · unfold change_admin_state_for_id
    rw [hg]
    dsimp only
    rw [hs]
  · have hadd2 : HistoryAdapter.add s message ev = .error .protocolError := by
      unfold HistoryAdapter.add
      rw [hadd]
    unfold add_history_entry_for_id
    rw [hg]
    dsimp only
    rw [hadd2]

theorem c3_translation_boundary_witness :
    create_event_from_id c3session 1 = .error (.managerException .protocolError) ∧
    get_history_for_id c3session 1 = .error (.managerException .protocolError) ∧
    get_log_for_id c3session 1 = .error (.managerException .protocolError) ∧
    change_admin_state_for_id c3session [(1, evFor 1)] 1 "closed" =
      .error .protocolError ∧
    add_history_entry_for_id c3session [(1, evFor 1)] 1 "a note" =
      .error .protocolError :=
  c3_translation_boundary c3session 1 [(1, evFor 1)] (evFor 1) "closed" "a note"
    (by decide) (by decide) (by decide) (by decide) (by decide) (by decide)

/-- C8: when the session declines the state change (set_state acknowledges
with False), change_admin_state_for_id returns none without raising, and
the store is exactly what it was before the call. -/
theorem c8_declined_change_keeps_store (s : Session) (store : Store)
    (event_id : Nat) (ev : Event) (admin_state : String)
    (hstore : dictGet store event_id = some ev)
    (hdecline : s.set_state ev.id admin_state = .ok false) :
    change_admin_state_for_id s store event_id admin_state = .ok (none, store) := by
  have hg : getEventFromStore store event_id = .ok ev := by
    unfold getEventFromStore
    rw [hstore]
  unfold change_admin_state_for_id
  rw [hg]
  dsimp only
  rw [hdecline]
  rfl

theorem c8_declined_change_keeps_store_witness :
    change_admin_state_for_id c8session [(1, evFor 1)] 1 "closed" =
      .ok (none, [(1, evFor 1)]) :=
  c8_declined_change_keeps_store c8session [(1, evFor 1)] 1 (evFor 1) "closed"
    (by decide) (by decide)

/-- C2, evaluated at the failing input: store = {5}, selection = [5],
notification (id 5, kind scavenged, case 7).  The code removes id 5 from
the store, but because it tests `update.case in cases_selected` (7, absent)
while the claim and spec call for removing `update.id`, id 5 stays in the
selection set, contradicting the claim. -/
theorem c2_scavenged_leaves_selection :
    poll (fun _ => evFor 5) ⟨[(5, evFor 5)], [5]⟩ (some ⟨5, "scavenged", 7⟩) =
      .ok ⟨⟨[], [5]⟩, some true, false⟩ := by decide

/-- C9: a notification whose id is not in the store and whose kind is not
`state` is dropped: the store and selection set are returned unchanged, no
fetch is made, and the poll step returns None. -/
theorem c9_unknown_id_guard (fetch : Nat → Event) (st : PollState)
    (u : Notification) (hunknown : dictGet st.cases u.id = none)
    (hkind : u.ntype ≠ "state") :
    poll fetch st (some u) = .ok ⟨st, none, false⟩ := by
  unfold poll
  dsimp only
  rw [if_pos ⟨hunknown, hkind⟩]

theorem c9_unknown_id_guard_witness :
    poll (fun _ => evFor 1) ⟨[], []⟩ (some ⟨9, "attr", 0⟩) =
      .ok ⟨⟨[], []⟩, none, false⟩ :=
  c9_unknown_id_guard (fun _ => evFor 1) ⟨[], []⟩ ⟨9, "attr", 0⟩ (by decide)
    (by decide)
